import Mathlib

/-!
# SmartOS core pipeline: shallow embedding

A verification development for the SmartOS assistant
(`smartos_main.py`, `smartos_metrics_dashboard.py`): the intent
classification → action dispatch → metrics aggregation pipeline.

Commands and textual payloads are modelled as `List Char` (Python `str`),
Python floats as `ℚ` (all arithmetic in scope is exact on the values the
code manipulates), and dictionaries as Lean structures.  External
collaborators (subprocess launches, the OS clock, the screenshot hook,
speech I/O) are abstracted as explicit parameters of the embedding;
Python exceptions are modelled with `Except`.
-/

namespace SmartOS

/-- Does `hay` start with `needle`?
(Empty needle always matches, as in Python slicing/containment.) -/
def beginsWith : List Char → List Char → Bool
  | _, [] => true
  | [], _ :: _ => false
  | a :: as, b :: bs => a == b && beginsWith as bs

/-- Python substring containment `needle in hay`. -/
def hasSub : List Char → List Char → Bool
  | [], needle => beginsWith [] needle
  | hay@(_ :: t), needle => beginsWith hay needle || hasSub t needle

/-- Variant of `hasSub` taking the needle as a string literal. -/
def hasSubS (hay : List Char) (needle : String) : Bool :=
  hasSub hay needle.toList

/-- Python `str.find`: index of the first occurrence of `needle` in `hay`
(`hay.length` when absent and `needle` is nonempty; callers in scope only
use it under a successful `hasSub` guard, mirroring the `in` guard in the
source). -/
def findSub : List Char → List Char → Nat
  | [], _ => 0
  | hay@(_ :: t), needle => if beginsWith hay needle then 0 else findSub t needle + 1

/-- Python `str.strip()`: remove leading and trailing whitespace. -/
def stripChars (l : List Char) : List Char :=
  ((l.dropWhile Char.isWhitespace).reverse.dropWhile Char.isWhitespace).reverse

/-- Model of `command.lower().strip()` — the normalization applied at the top of
`NLUProcessor.parse_command` (lowercasing modelled per character, exact
for the ASCII rule tables of the classifier). -/
def normalize (command : List Char) : List Char :=
  stripChars (command.map Char.toLower)

/-- Python `str.split()` (no separator): whitespace-delimited tokens,
auxiliary accumulator form. -/
def splitWSAux : List Char → List Char → List (List Char)
  | [], acc => if acc.isEmpty then [] else [acc.reverse]
  | c :: rest, acc =>
    if c.isWhitespace then
      if acc.isEmpty then splitWSAux rest [] else acc.reverse :: splitWSAux rest []
    else splitWSAux rest (c :: acc)

/-- Python `str.split()` with no argument. -/
def splitWS (l : List Char) : List (List Char) := splitWSAux l []

/-- Structured intent produced by the classifier
(`parse_command`'s `intent` dictionary). -/
structure Intent where
  action : String
  target : String
  parameters : List (String × List Char)
  confidence : ℚ
  original_command : List Char
  deriving Repr, DecidableEq

/-- The freshly initialised intent dictionary of `parse_command`. -/
def base_intent (command : List Char) : Intent :=
  { action := "unknown", target := "", parameters := [], confidence := 0,
    original_command := command }

/-- Table `intent_patterns["open_application"]["keywords"]`. -/
def open_keywords : List String := ["open", "launch", "start", "run"]

/-- Table `intent_patterns["open_application"]["apps"]`: canonical app label to
alias phrases, in declared order. -/
def open_apps : List (String × List String) :=
  [("notepad", ["notepad", "text editor", "note"]),
   ("calculator", ["calculator", "calc"]),
   ("browser", ["browser", "chrome", "firefox", "edge", "internet"]),
   ("explorer", ["explorer", "file manager", "files", "folder"]),
   ("cmd", ["command prompt", "cmd", "terminal", "console"]),
   ("powershell", ["powershell", "ps"]),
   ("code", ["vscode", "visual studio code", "code editor", "vs code"]),
   ("word", ["word", "microsoft word", "document"]),
   ("excel", ["excel", "spreadsheet", "microsoft excel"])]

/-- Table `intent_patterns["file_operations"]["keywords"]`. -/
def file_keywords : List String := ["create", "write", "save", "delete", "copy", "move"]

/-- Table `intent_patterns["file_operations"]["actions"]`. -/
def file_actions : List (String × List String) :=
  [("create", ["create", "make", "new"]),
   ("write", ["write", "type", "add content", "insert"]),
   ("save", ["save", "store"]),
   ("delete", ["delete", "remove", "erase"]),
   ("copy", ["copy", "duplicate"]),
   ("move", ["move", "transfer", "relocate"])]

/-- Table `intent_patterns["system_control"]["keywords"]`. -/
def system_keywords : List String := ["shutdown", "restart", "sleep", "hibernate", "lock"]

/-- Table `intent_patterns["content_creation"]["keywords"]`. -/
def content_keywords : List String := ["write essay", "create document", "compose", "draft"]

/-- Table `intent_patterns["content_creation"]["types"]`. -/
def content_types : List String := ["essay", "document", "letter", "report", "email"]

/-- Filename extraction inside the file-operations branch: scan the
whitespace-split words of the original command for `"file"`/`"document"`
(case-folded) followed by another word, and take that next word. -/
def extract_filename : List (List Char) → Option (List Char)
  | [] => none
  | [_] => none
  | w :: w2 :: rest =>
    if w.map Char.toLower == "file".toList || w.map Char.toLower == "document".toList then
      some w2
    else extract_filename (w2 :: rest)

/-- The open-application branch of `parse_command` (lines 167–175): the
action is set unconditionally once a trigger keyword matched; target and
the 0.9 confidence are set only when some app alias is a substring. -/
def open_group (cl command : List Char) : Intent :=
  let i1 := { base_intent command with action := "open_application" }
  match open_apps.find? (fun ap => ap.2.any (fun al => hasSubS cl al)) with
  | some ap => { i1 with target := ap.1, confidence := 9/10 }
  | none => i1

/-- The file-operations branch of `parse_command` (lines 177–194). -/
def file_group (cl command : List Char) : Intent :=
  let i1 := { base_intent command with action := "file_operation" }
  match file_actions.find? (fun ac => ac.2.any (fun al => hasSubS cl al)) with
  | some ac =>
    let i2 := { i1 with target := ac.1, confidence := 8/10 }
    if hasSubS cl "file" || hasSubS cl "document" then
      match extract_filename (splitWS command) with
      | some fn => { i2 with parameters := [("filename", fn)] }
      | none => i2
    else i2
  | none => i1

/-- The content-creation branch of `parse_command` (lines 205–219): the
topic is extracted only inside a successful content-type match, by slicing
the ORIGINAL command at the index where `"about"` occurs in the
normalized text, plus `5 = length "about"`. -/
def content_group (cl command : List Char) : Intent :=
  let i1 := { base_intent command with action := "content_creation" }
  match content_types.find? (fun ty => hasSubS cl ty) with
  | some ty =>
    let i2 := { i1 with target := ty, confidence := 75/100 }
    if hasSubS cl "about" then
      { i2 with
        parameters :=
          [("topic", stripChars (command.drop (findSub cl "about".toList + 5)))] }
    else i2
  | none => i1

/-- Model of `NLUProcessor.parse_command`: priority-ordered rule groups — the
first group with a trigger keyword present in the normalized text wins;
later groups are guarded by `action == "unknown"` in the source, i.e.
they are reached only when every earlier group failed to trigger. -/
def parse_command (command : List Char) : Intent :=
  let cl := normalize command
  match open_keywords.find? (fun k => hasSubS cl k) with
  | some _ => open_group cl command
  | none =>
  match file_keywords.find? (fun k => hasSubS cl k) with
  | some _ => file_group cl command
  | none =>
  match system_keywords.find? (fun k => hasSubS cl k) with
  | some kw =>
    { base_intent command with
      action := "system_control"
      target := kw
      confidence := 85/100 }
  | none =>
  match content_keywords.find? (fun kw => (splitWS kw.toList).any (fun tok => hasSub cl tok)) with
  | some _ => content_group cl command
  | none => base_intent command

/-- The `result` dictionary built by `TaskExecutor.execute_intent`;
handler branches return it with `success`/`message` set, and the
dispatcher adds `execution_time` (and `error`/`screenshot` on the
exception path).  Defaults mirror the dictionary initialised at the top
of `execute_intent`. -/
structure ExecResult where
  success : Bool := false
  message : List Char := []
  execution_time : ℚ := 0
  error : Option (List Char) := none
  screenshot : Option (List Char) := none
  deriving Repr, DecidableEq

/-- Handler outcome shorthand: the two-key dictionaries the handlers
return. -/
def mkResult (success : Bool) (message : List Char) : ExecResult :=
  { success := success, message := message }

/-- The environment of external collaborators around
`TaskExecutor.execute_intent`: the four handlers (whose bodies perform
subprocess / filesystem / OS I/O; a Python exception with text `e` is
`Except.error e`), the measured wall-clock duration, the
`screenshot_on_error` configuration flag, and the result of the
`_capture_screenshot` hook (`none` when capture itself fails). -/
structure ExecEnv where
  app_launch : Intent → Except (List Char) ExecResult
  file_op : Intent → Except (List Char) ExecResult
  sys_control : Intent → Except (List Char) ExecResult
  content_create : Intent → Except (List Char) ExecResult
  elapsed : ℚ
  screenshot_on_error : Bool
  capture : Option (List Char)

/-- The `try` body of `execute_intent`: dispatch on `intent["action"]`
to one of the four handlers; any other action short-circuits to the
"Unknown command" message without invoking a handler. -/
def dispatch_branch (env : ExecEnv) (intent : Intent) : Except (List Char) ExecResult :=
  if intent.action = "open_application" then env.app_launch intent
  else if intent.action = "file_operation" then env.file_op intent
  else if intent.action = "system_control" then env.sys_control intent
  else if intent.action = "content_creation" then env.content_create intent
  else .ok (mkResult false ("Unknown command: ".toList ++ intent.original_command))

/-- Model of `TaskExecutor.execute_intent` (lines 263–296): run the dispatch
branch under the failure boundary.  A normal return gets
`execution_time` stamped onto it; an exception is caught, its text is
recorded in `error`, `success` stays false, `execution_time` is still
stamped, and the screenshot hook result is attached when
`screenshot_on_error` is configured.  The function is total: no
exception reaches the caller. -/
def execute_intent (env : ExecEnv) (intent : Intent) : ExecResult :=
  match dispatch_branch env intent with
  | .ok r => { r with execution_time := env.elapsed }
  | .error e =>
    { success := false
      message := []
      execution_time := env.elapsed
      error := some e
      screenshot := if env.screenshot_on_error then env.capture else none }

/-- The filename resolved by `_execute_file_operation`:
`intent["parameters"].get("filename", "untitled.txt")`. -/
def resolved_filename (intent : Intent) : List Char :=
  (intent.parameters.lookup "filename").getD "untitled.txt".toList

/-- Ensure a path is present in the filesystem model (the effect of
`Path(filename).touch()` / `open(filename, "w")` on the set of existing
paths). -/
def fs_touch (fs : List (List Char)) (filename : List Char) : List (List Char) :=
  if filename ∈ fs then fs else fs ++ [filename]

/-- Model of `TaskExecutor._execute_file_operation` (lines 325–349) over a
filesystem modelled as the list of existing paths: returns the updated
filesystem together with the handler result.  On the idealized
filesystem the branches raise nothing, so the surrounding
`try`/`except` is never exercised. -/
def execute_file_operation (fs : List (List Char)) (intent : Intent) :
    List (List Char) × ExecResult :=
  let operation := intent.target
  let filename := resolved_filename intent
  if operation = "create" then
    (fs_touch fs filename, mkResult true ("Created file: ".toList ++ filename))
  else if operation = "write" then
    (fs_touch fs filename, mkResult true ("Written content to: ".toList ++ filename))
  else if operation = "delete" then
    if filename ∈ fs then
      (fs.erase filename, mkResult true ("Deleted file: ".toList ++ filename))
    else
      (fs, mkResult false ("File not found: ".toList ++ filename))
  else
    (fs, mkResult false ("File operation not implemented: ".toList ++ operation.toList))

/-- Model of `SmartOSCore.execution_metrics`: the live counters of the pipeline. -/
structure Metrics where
  total_commands : Nat
  successful_commands : Nat
  failed_commands : Nat
  average_response_time : ℚ
  deriving Repr, DecidableEq

/-- The all-zero metrics the core starts with. -/
def initial_metrics : Metrics :=
  { total_commands := 0, successful_commands := 0, failed_commands := 0,
    average_response_time := 0 }

/-- The metrics update of `SmartOSInterface.process_command`
(lines 533–543): increment `total_commands`, bump the matching outcome
counter, and recompute the rolling average as
`(avg * (total_commands - 1) + execution_time) / total_commands`, with
`total_commands` already incremented. -/
def update_metrics (m : Metrics) (success : Bool) (execution_time : ℚ) : Metrics :=
  let total_commands := m.total_commands + 1
  let total_time := m.average_response_time * ((total_commands : ℚ) - 1) + execution_time
  { total_commands := total_commands
    successful_commands :=
      if success then m.successful_commands + 1 else m.successful_commands
    failed_commands :=
      if success then m.failed_commands else m.failed_commands + 1
    average_response_time := total_time / (total_commands : ℚ) }

/-- One entry of the execution log written by `log_execution_result`
(the `timestamp` field comes from the OS clock, an external
collaborator, and is omitted from the record model). -/
structure LogEntry where
  command : List Char
  intent : Intent
  result : ExecResult
  execution_time : ℚ
  deriving Repr, DecidableEq

/-- The clarification response of the low-confidence gate in
`process_command`. -/
def clarification (command : List Char) : List Char :=
  "I am not sure how to handle: ".toList ++ command ++ ". Could you rephrase?".toList

/-- Model of `SmartOSInterface.process_command` (lines 513–557): parse, gate on
confidence `< 0.5` (returning a clarification without dispatching,
logging, or touching the metrics), otherwise dispatch, update the
metrics, append the log record, and produce the user-facing response. -/
def process_command (env : ExecEnv) (m : Metrics) (log : List LogEntry)
    (command : List Char) : Metrics × List LogEntry × List Char :=
  let intent := parse_command command
  if intent.confidence < 1/2 then
    (m, log, clarification command)
  else
    let result := execute_intent env intent
    let m1 := update_metrics m result.success result.execution_time
    let entry : LogEntry :=
      { command := command, intent := intent, result := result,
        execution_time := result.execution_time }
    let response :=
      if result.success then result.message
      else "Failed to execute command: ".toList ++ result.message
    (m1, log ++ [entry], response)

/-- One iteration of the interaction loop: thread the metrics and the
log through `process_command`, discarding the spoken/printed response. -/
def pipeline_step (env : ExecEnv) (st : Metrics × List LogEntry)
    (cmd : List Char) : Metrics × List LogEntry :=
  let r := process_command env st.1 st.2 cmd
  (r.1, r.2.1)

/-- Run a sequence of commands through the live pipeline from the
all-zero initial state, as the interaction loop does. -/
def run_commands (env : ExecEnv) (cmds : List (List Char)) :
    Metrics × List LogEntry :=
  cmds.foldl (pipeline_step env) (initial_metrics, [])

/-- One execution record as read back by the metrics dashboard
(`MetricsCollector`): `success` models
`d.get("result", {}).get("success", False)` and `execution_time` the
optional top-level `execution_time` key. -/
structure ExecRecord where
  success : Bool
  execution_time : Option ℚ
  deriving Repr, DecidableEq

/-- The overview and response-time-distribution portion of the snapshot
computed by `MetricsCollector.calculate_performance_metrics`. -/
structure Snapshot where
  total_commands : Nat
  successful_commands : Nat
  failed_commands : Nat
  average_response_time : ℚ
  under_1s : Nat
  under_3s : Nat
  under_5s : Nat
  over_5s : Nat
  deriving Repr, DecidableEq

/-- Model of `MetricsCollector.calculate_performance_metrics` (lines 76–144),
restricted to the overview counters and the response-time
distribution.  An empty record set returns the empty dictionary in the
source (`if not data: return {}`), modelled as `none`. -/
def calculate_performance_metrics (data : List ExecRecord) : Option Snapshot :=
  if data.isEmpty then none
  else
    let total_commands := data.length
    let successful_commands := data.countP (·.success)
    let failed_commands := total_commands - successful_commands
    let response_times := data.filterMap (·.execution_time)
    let avg_response_time :=
      if response_times.isEmpty then 0
      else response_times.sum / (response_times.length : ℚ)
    some
      { total_commands := total_commands
        successful_commands := successful_commands
        failed_commands := failed_commands
        average_response_time := avg_response_time
        under_1s := response_times.countP (fun t => decide (t < 1))
        under_3s := response_times.countP (fun t => decide (t < 3))
        under_5s := response_times.countP (fun t => decide (t < 5))
        over_5s := response_times.countP (fun t => decide (5 ≤ t)) }

/-! ## Concrete instances used by witnesses and counterexamples -/

/-- An environment whose handlers all succeed. -/
def env0 : ExecEnv :=
  { app_launch := fun _ => .ok (mkResult true "launched".toList)
    file_op := fun _ => .ok (mkResult true "done".toList)
    sys_control := fun _ => .ok (mkResult true "done".toList)
    content_create := fun _ => .ok (mkResult true "done".toList)
    elapsed := 1
    screenshot_on_error := true
    capture := some "shot.png".toList }

/-- An environment whose app-launch handler raises. -/
def envBoom : ExecEnv :=
  { env0 with app_launch := fun _ => .error "boom".toList }

/-- A fully resolved open-application intent. -/
def intent_open : Intent :=
  { action := "open_application", target := "notepad", parameters := [],
    confidence := 9/10, original_command := "open notepad".toList }

/-- A delete intent naming a file. -/
def intent_delete : Intent :=
  { action := "file_operation", target := "delete",
    parameters := [("filename", "ghost.txt".toList)],
    confidence := 8/10, original_command := "delete file ghost.txt".toList }

/-- A two-record data set for the dashboard computation (one of them
lacking the optional `execution_time` key, as the collector tolerates). -/
def data0 : List ExecRecord :=
  [{ success := true, execution_time := none },
   { success := false, execution_time := none }]

/-- The snapshot `calculate_performance_metrics` yields on `data0`. -/
def snap0 : Snapshot :=
  { total_commands := 2, successful_commands := 1, failed_commands := 1,
    average_response_time := 0, under_1s := 0, under_3s := 0, under_5s := 0,
    over_5s := 0 }

/-! ## Theorems -/

/-- C1: the incremental average-response-time update implements
`new_avg = (current_avg * n_before + new_time) / (n_before + 1)` for
every prior average, prior count and new execution time; and feeding
execution times 2, 4, 6 from the all-zero state yields averages
2, 3, 4. -/
theorem incremental_average_update :
    (∀ (m : Metrics) (s : Bool) (t : ℚ),
      (update_metrics m s t).average_response_time
        = (m.average_response_time * (m.total_commands : ℚ) + t)
            / ((m.total_commands : ℚ) + 1)) ∧
    ((update_metrics initial_metrics true 2).average_response_time = 2 ∧
      (update_metrics (update_metrics initial_metrics true 2) true 4).average_response_time = 3 ∧
      (update_metrics (update_metrics (update_metrics initial_metrics true 2) true 4)
          true 6).average_response_time = 4) := by
  constructor
  · intro m s t
    unfold update_metrics
    push_cast
    ring_nf
  · refine ⟨by norm_num [update_metrics, initial_metrics], ?_, ?_⟩ <;>
      norm_num [update_metrics, initial_metrics]

/-- C10: the live pipeline never divides by zero in the rolling-average
update: `total_commands` is incremented before the average is
recomputed, so on the dispatching branch the divisor is the
post-increment total, at least 1, for every metrics state including the
all-zero initial one. -/
theorem average_divisor_positive (env : ExecEnv) (m : Metrics)
    (log : List LogEntry) (cmd : List Char)
    (h : ¬ (parse_command cmd).confidence < 1/2) :
    (process_command env m log cmd).1.total_commands = m.total_commands + 1 ∧
    0 < (process_command env m log cmd).1.total_commands ∧
    (0 : ℚ) < ((m.total_commands : ℚ) + 1) ∧
    (process_command env m log cmd).1.average_response_time
      = (m.average_response_time * (m.total_commands : ℚ)
          + (execute_intent env (parse_command cmd)).execution_time)
          / ((m.total_commands : ℚ) + 1) := by
  have hpos : (0 : ℚ) < ((m.total_commands : ℚ) + 1) := by positivity
  simp only [process_command, if_neg h]
  refine ⟨rfl, Nat.succ_pos _, hpos, ?_⟩
  unfold update_metrics
  push_cast
  ring_nf

/-- Witness for `average_divisor_positive` at the command
"open notepad" from the initial state. -/
theorem average_divisor_positive_witness :
    (process_command env0 initial_metrics [] "open notepad".toList).1.total_commands
        = initial_metrics.total_commands + 1 ∧
    0 < (process_command env0 initial_metrics [] "open notepad".toList).1.total_commands := by
  have h := average_divisor_positive env0 initial_metrics [] "open notepad".toList
    (by rw [show (parse_command "open notepad".toList).confidence = 9/10 from rfl]; norm_num)
  exact ⟨h.1, h.2.1⟩

/-- C8: a command whose classified intent has confidence below 0.5 is
not dispatched: the metrics and the log are returned unchanged (for
every dispatch environment, so no handler can have been consulted) and
the caller receives the clarification request. -/
theorem classification_miss_gate (env : ExecEnv) (m : Metrics)
    (log : List LogEntry) (cmd : List Char)
    (h : (parse_command cmd).confidence < 1/2) :
    process_command env m log cmd = (m, log, clarification cmd) := by
  simp only [process_command, if_pos h]

/-- Witness for `classification_miss_gate` at the gibberish command
"asdkj qwoei". -/
theorem classification_miss_gate_witness :
    process_command env0 initial_metrics [] "asdkj qwoei".toList
      = (initial_metrics, [], clarification "asdkj qwoei".toList) :=
  classification_miss_gate env0 initial_metrics [] "asdkj qwoei".toList
    (by rw [show (parse_command "asdkj qwoei".toList).confidence = 0 from rfl]; norm_num)

/-- The one-step metrics update preserves
`total_commands = successful_commands + failed_commands`. -/
theorem update_metrics_preserves_sum (m : Metrics) (s : Bool) (t : ℚ)
    (h : m.total_commands = m.successful_commands + m.failed_commands) :
    (update_metrics m s t).total_commands
      = (update_metrics m s t).successful_commands
          + (update_metrics m s t).failed_commands := by
  unfold update_metrics
  cases s <;> simp <;> omega

/-- Stepping the pipeline preserves the count invariant. -/
theorem pipeline_step_preserves_sum (env : ExecEnv)
    (st : Metrics × List LogEntry) (cmd : List Char)
    (h : st.1.total_commands = st.1.successful_commands + st.1.failed_commands) :
    (pipeline_step env st cmd).1.total_commands
      = (pipeline_step env st cmd).1.successful_commands
          + (pipeline_step env st cmd).1.failed_commands := by
  simp only [pipeline_step, process_command]
  by_cases hc : (parse_command cmd).confidence < 1/2
  · simp only [if_pos hc]
    exact h
  · simp only [if_neg hc]
    exact update_metrics_preserves_sum _ _ _ h

/-- Folding `pipeline_step` preserves the count invariant. -/
theorem foldl_pipeline_preserves_sum (env : ExecEnv) (cmds : List (List Char))
    (st : Metrics × List LogEntry)
    (h : st.1.total_commands = st.1.successful_commands + st.1.failed_commands) :
    (cmds.foldl (pipeline_step env) st).1.total_commands
      = (cmds.foldl (pipeline_step env) st).1.successful_commands
          + (cmds.foldl (pipeline_step env) st).1.failed_commands := by
  induction cmds generalizing st with
  | nil => exact h
  | cons c cs ih => exact ih _ (pipeline_step_preserves_sum env st c h)

/-- C6: count consistency.  The batch snapshot satisfies
`total_commands = successful_commands + failed_commands` for every
record set it is produced from, and the incremental pipeline preserves
the same equality of its counters after every processed command,
starting from the all-zero initial state. -/
theorem counts_consistent :
    (∀ (data : List ExecRecord) (s : Snapshot),
        calculate_performance_metrics data = some s →
        s.total_commands = s.successful_commands + s.failed_commands) ∧
    (∀ (env : ExecEnv) (cmds : List (List Char)),
        (run_commands env cmds).1.total_commands
          = (run_commands env cmds).1.successful_commands
              + (run_commands env cmds).1.failed_commands) := by
  constructor
  · intro data s hs
    simp only [calculate_performance_metrics] at hs
    by_cases hd : data.isEmpty
    · simp [hd] at hs
    · rw [if_neg hd] at hs
      obtain rfl := Option.some.inj hs
      have hle : data.countP (·.success) ≤ data.length := List.countP_le_length _
      dsimp only
      omega
  · intro env cmds
    exact foldl_pipeline_preserves_sum env cmds (initial_metrics, []) rfl

/-- Witness for `counts_consistent`: the one-record data set `data0`
and a one-command run. -/
theorem counts_consistent_witness :
    snap0.total_commands = snap0.successful_commands + snap0.failed_commands ∧
    (run_commands env0 ["open notepad".toList]).1.total_commands
      = (run_commands env0 ["open notepad".toList]).1.successful_commands
          + (run_commands env0 ["open notepad".toList]).1.failed_commands :=
  ⟨counts_consistent.1 data0 snap0 (by decide),
   counts_consistent.2 env0 ["open notepad".toList]⟩

/-- Counting `< 5` and `≥ 5` entries partitions a rational list. -/
theorem countP_lt_add_countP_ge (l : List ℚ) :
    l.countP (fun t => decide (t < 5)) + l.countP (fun t => decide (5 ≤ t))
      = l.length := by
  induction l with
  | nil => rfl
  | cons a l ih =>
    by_cases h : a < 5
    · rw [List.countP_cons_of_pos _ _ (by simpa using h),
        List.countP_cons_of_neg _ _ (by simpa using not_le.mpr h)]
      simp only [List.length_cons]
      omega
    · rw [List.countP_cons_of_neg _ _ (by simpa using h),
        List.countP_cons_of_pos _ _ (by simpa using not_lt.mp h)]
      simp only [List.length_cons]
      omega

/-- C5: the response-time distribution is cumulative: for every record
set fed to the metrics computation,
`under_1s ≤ under_3s ≤ under_5s ≤ total_commands`, and `over_5s` is the
complement of `under_5s` within the recorded response times. -/
theorem histogram_cumulative (data : List ExecRecord) (s : Snapshot)
    (hs : calculate_performance_metrics data = some s) :
    s.under_1s ≤ s.under_3s ∧ s.under_3s ≤ s.under_5s ∧
    s.under_5s ≤ s.total_commands ∧
    s.under_5s + s.over_5s = (data.filterMap (·.execution_time)).length := by
  simp only [calculate_performance_metrics] at hs
  by_cases hd : data.isEmpty
  · simp [hd] at hs
  · rw [if_neg hd] at hs
    obtain rfl := Option.some.inj hs
    dsimp only
    refine ⟨?_, ?_, ?_, ?_⟩
    · exact List.countP_mono_left (fun t _ ht =>
        decide_eq_true (lt_trans (of_decide_eq_true ht) (by norm_num)))
    · exact List.countP_mono_left (fun t _ ht =>
        decide_eq_true (lt_trans (of_decide_eq_true ht) (by norm_num)))
    · exact le_trans (List.countP_le_length _) (List.length_filterMap_le _ _)
    · exact countP_lt_add_countP_ge (data.filterMap (·.execution_time))

/-- Witness for `histogram_cumulative` at the one-record data set
`data0`. -/
theorem histogram_cumulative_witness :
    snap0.under_1s ≤ snap0.under_3s ∧ snap0.under_3s ≤ snap0.under_5s ∧
    snap0.under_5s ≤ snap0.total_commands ∧
    snap0.under_5s + snap0.over_5s = (data0.filterMap (·.execution_time)).length :=
  histogram_cumulative data0 snap0 (by decide)

/-- An execution environment whose file-operation handler is the
modelled `_execute_file_operation` over the filesystem `fs` (which, on
the idealized filesystem, raises nothing). -/
def env_with_fs (fs : List (List Char)) : ExecEnv :=
  { env0 with file_op := fun i => .ok (execute_file_operation fs i).2 }

/-- C7: deleting a file that does not exist yields `success = false`
with a "File not found" message, raises nothing (the handler is a total
function and its dispatch also reports the failure, rather than an
exception), and leaves the filesystem untouched. -/
theorem delete_missing_file_not_found (fs : List (List Char)) (intent : Intent)
    (ha : intent.action = "file_operation")
    (ht : intent.target = "delete")
    (hm : resolved_filename intent ∉ fs) :
    (execute_file_operation fs intent).1 = fs ∧
    (execute_file_operation fs intent).2.success = false ∧
    (execute_file_operation fs intent).2.message
      = "File not found: ".toList ++ resolved_filename intent ∧
    (execute_intent (env_with_fs fs) intent).success = false ∧
    (execute_intent (env_with_fs fs) intent).error = none := by
  have hcore : (execute_file_operation fs intent).1 = fs ∧
      (execute_file_operation fs intent).2.success = false ∧
      (execute_file_operation fs intent).2.message
        = "File not found: ".toList ++ resolved_filename intent ∧
      (execute_file_operation fs intent).2.error = none := by
    unfold execute_file_operation
    rw [ht]
    rw [if_neg (by decide), if_neg (by decide), if_pos rfl, if_neg hm]
    exact ⟨rfl, rfl, rfl, rfl⟩
  have hdis : dispatch_branch (env_with_fs fs) intent
      = .ok (execute_file_operation fs intent).2 := by
    unfold dispatch_branch
    rw [ha]
    rw [if_neg (by decide), if_pos rfl]
    rfl
  refine ⟨hcore.1, hcore.2.1, hcore.2.2.1, ?_, ?_⟩
  · unfold execute_intent
    rw [hdis]
    exact hcore.2.1
  · unfold execute_intent
    rw [hdis]
    exact hcore.2.2.2

/-- Witness for `delete_missing_file_not_found`: deleting `ghost.txt`
from a filesystem holding only `a.txt`. -/
theorem delete_missing_file_not_found_witness :
    (execute_file_operation ["a.txt".toList] intent_delete).1 = ["a.txt".toList] ∧
    (execute_file_operation ["a.txt".toList] intent_delete).2.success = false ∧
    (execute_file_operation ["a.txt".toList] intent_delete).2.message
      = "File not found: ".toList ++ resolved_filename intent_delete ∧
    (execute_intent (env_with_fs ["a.txt".toList]) intent_delete).success = false ∧
    (execute_intent (env_with_fs ["a.txt".toList]) intent_delete).error = none :=
  delete_missing_file_not_found ["a.txt".toList] intent_delete rfl rfl (by decide)

/-- C3: the dispatch failure boundary.  `execute_intent` is a total
function into `ExecResult` (no exception reaches its caller); the
measured duration is stamped on the result regardless of outcome; and
when the selected handler raises, the exception text lands in `error`,
`success` is false, and with `screenshot_on_error` configured the
diagnostic capture is attached. -/
theorem dispatch_failure_boundary (env : ExecEnv) (intent : Intent) :
    (execute_intent env intent).execution_time = env.elapsed ∧
    (∀ e, dispatch_branch env intent = .error e →
      (execute_intent env intent).success = false ∧
      (execute_intent env intent).error = some e ∧
      (env.screenshot_on_error = true →
        (execute_intent env intent).screenshot = env.capture)) := by
  refine ⟨?_, fun e he => ?_⟩
  · unfold execute_intent
    cases h : dispatch_branch env intent <;> rfl
  · unfold execute_intent
    rw [he]
    exact ⟨rfl, rfl, fun hcfg => by rw [if_pos hcfg]⟩

/-- Witness for `dispatch_failure_boundary`: a raising app-launch
handler with the screenshot hook configured. -/
theorem dispatch_failure_boundary_witness :
    (execute_intent envBoom intent_open).success = false ∧
    (execute_intent envBoom intent_open).error = some "boom".toList ∧
    (execute_intent envBoom intent_open).screenshot = some "shot.png".toList := by
  have h := (dispatch_failure_boundary envBoom intent_open).2 "boom".toList rfl
  exact ⟨h.1, h.2.1, h.2.2 rfl⟩

/-- Whatever the alias search yields, the open-application branch sets
`action` to `"open_application"`. -/
theorem open_group_action (cl command : List Char) :
    (open_group cl command).action = "open_application" := by
  unfold open_group
  cases open_apps.find? (fun ap => ap.2.any (fun al => hasSubS cl al)) <;> rfl

/-- Whatever the sub-action search and filename extraction yield, the
file-operations branch sets `action` to `"file_operation"`. -/
theorem file_group_action (cl command : List Char) :
    (file_group cl command).action = "file_operation" := by
  unfold file_group
  cases file_actions.find? (fun ac => ac.2.any (fun al => hasSubS cl al)) with
  | none => rfl
  | some ac =>
    dsimp only
    by_cases hf : (hasSubS cl "file" || hasSubS cl "document") = true
    · rw [if_pos hf]
      cases extract_filename (splitWS command) <;> rfl
    · rw [if_neg hf]

/-- Whatever the type search and topic extraction yield, the
content-creation branch sets `action` to `"content_creation"`. -/
theorem content_group_action (cl command : List Char) :
    (content_group cl command).action = "content_creation" := by
  unfold content_group
  cases content_types.find? (fun ty => hasSubS cl ty) with
  | none => rfl
  | some ty =>
    dsimp only
    by_cases ha : hasSubS cl "about" = true
    · rw [if_pos ha]
    · rw [if_neg ha]

/-- C2: priority-order invariant.  If the normalized text contains an
open-application trigger keyword and also a file-operation trigger
keyword, `parse_command` resolves the whole intent inside the
open-application group (`action = "open_application"`); the later
groups are never consulted. -/
theorem priority_open_application_wins (cmd : List Char)
    (hopen : ∃ k ∈ open_keywords, hasSubS (normalize cmd) k = true)
    (_hfile : ∃ k ∈ file_keywords, hasSubS (normalize cmd) k = true) :
    parse_command cmd = open_group (normalize cmd) cmd ∧
    (parse_command cmd).action = "open_application" := by
  have h1 : (open_keywords.find? (fun k => hasSubS (normalize cmd) k)).isSome := by
    rw [List.find?_isSome]
    obtain ⟨k, hk, hks⟩ := hopen
    exact ⟨k, hk, hks⟩
  obtain ⟨k, heq⟩ := Option.isSome_iff_exists.mp h1
  have hmain : parse_command cmd = open_group (normalize cmd) cmd := by
    simp only [parse_command]
    rw [heq]
  exact ⟨hmain, hmain ▸ open_group_action _ _⟩

/-- Witness for `priority_open_application_wins` at the command
"open notepad and create file report.txt", which contains the open
trigger "open" and the file triggers "create"/"file". -/
theorem priority_open_application_wins_witness :
    parse_command "open notepad and create file report.txt".toList
        = open_group (normalize "open notepad and create file report.txt".toList)
            "open notepad and create file report.txt".toList ∧
    (parse_command "open notepad and create file report.txt".toList).action
        = "open_application" :=
  priority_open_application_wins "open notepad and create file report.txt".toList
    (by decide) (by decide)

/-- The concrete command refuting C4 as stated. -/
def cmd_open_xyz : List Char := "open xyz".toList

/-- Counterexample to C4 as stated: "open xyz" contains the trigger
"open" and no app alias intersects it, yet the returned confidence is
0, not the group constant 0.9 — the source assigns 0.9 only inside a
successful alias match. -/
theorem unmatched_target_confidence_counterexample :
    (∃ k ∈ open_keywords, hasSubS (normalize cmd_open_xyz) k = true) ∧
    (∀ ap ∈ open_apps, ∀ al ∈ ap.2, hasSubS (normalize cmd_open_xyz) al = false) ∧
    (parse_command cmd_open_xyz).action = "open_application" ∧
    (parse_command cmd_open_xyz).target = "" ∧
    ¬ (parse_command cmd_open_xyz).confidence = 9/10 := by
  refine ⟨by decide, by decide, by decide, by decide, ?_⟩
  rw [show (parse_command cmd_open_xyz).confidence = 0 from rfl]
  norm_num

/-- C4 (amended): for every input whose normalized text contains an
open-application trigger keyword but intersects no app alias set,
`parse_command` returns `action = "open_application"`, an empty target,
and confidence 0 (the classification-miss gate then rejects the
command). -/
theorem unmatched_target_empty_with_zero_confidence (cmd : List Char)
    (hopen : ∃ k ∈ open_keywords, hasSubS (normalize cmd) k = true)
    (hnone : ∀ ap ∈ open_apps, ∀ al ∈ ap.2, hasSubS (normalize cmd) al = false) :
    (parse_command cmd).action = "open_application" ∧
    (parse_command cmd).target = "" ∧
    (parse_command cmd).confidence = 0 := by
  have h1 : (open_keywords.find? (fun k => hasSubS (normalize cmd) k)).isSome := by
    rw [List.find?_isSome]
    obtain ⟨k, hk, hks⟩ := hopen
    exact ⟨k, hk, hks⟩
  obtain ⟨k, heq⟩ := Option.isSome_iff_exists.mp h1
  have hmain : parse_command cmd = open_group (normalize cmd) cmd := by
    simp only [parse_command]
    rw [heq]
  have happ : open_apps.find?
      (fun ap => ap.2.any (fun al => hasSubS (normalize cmd) al)) = none := by
    rw [List.find?_eq_none]
    intro ap hap hAny
    rw [List.any_eq_true] at hAny
    obtain ⟨al, hal, hsub⟩ := hAny
    rw [hnone ap hap al hal] at hsub
    exact Bool.false_ne_true hsub
  have hog : open_group (normalize cmd) cmd
      = { base_intent cmd with action := "open_application" } := by
    unfold open_group
    rw [happ]
  rw [hmain, hog]
  exact ⟨rfl, rfl, rfl⟩

/-- Witness for `unmatched_target_empty_with_zero_confidence` at
"open xyz". -/
theorem unmatched_target_empty_with_zero_confidence_witness :
    (parse_command cmd_open_xyz).action = "open_application" ∧
    (parse_command cmd_open_xyz).target = "" ∧
    (parse_command cmd_open_xyz).confidence = 0 :=
  unmatched_target_empty_with_zero_confidence cmd_open_xyz (by decide) (by decide)

/-- The concrete command refuting C9 as stated. -/
def cmd_compose : List Char := "compose something about cats".toList

/-- Counterexample to C9 as stated: "compose something about cats" is
classified `content_creation` and contains "about", yet no `topic`
parameter appears, because no content type resolved from the text and
the source extracts the topic only inside the type-match branch. -/
theorem topic_requires_target_counterexample :
    (parse_command cmd_compose).action = "content_creation" ∧
    hasSubS (normalize cmd_compose) "about" = true ∧
    (parse_command cmd_compose).parameters.lookup "topic" = none :=
  ⟨by decide, by decide, by decide⟩

/-- C9 (amended): for every input text that `parse_command` assigns
`action = "content_creation"`, whose normalized text contains the
substring "about", and from which a content type WAS resolved
(`target ≠ ""`), the returned parameters bind `topic` to the portion of
the original text starting five characters past the first occurrence of
"about" in the normalized text, trimmed of surrounding whitespace. -/
theorem topic_extracted_when_type_resolved (cmd : List Char)
    (hact : (parse_command cmd).action = "content_creation")
    (htgt : (parse_command cmd).target ≠ "")
    (hab : hasSubS (normalize cmd) "about" = true) :
    (parse_command cmd).parameters.lookup "topic"
      = some (stripChars (cmd.drop (findSub (normalize cmd) "about".toList + 5))) := by
  simp only [parse_command] at hact htgt ⊢
  cases h1 : open_keywords.find? (fun k => hasSubS (normalize cmd) k) with
  | some k =>
    simp only [h1] at hact
    rw [open_group_action] at hact
    exact absurd hact (by decide)
  | none =>
  simp only [h1] at hact htgt ⊢
  cases h2 : file_keywords.find? (fun k => hasSubS (normalize cmd) k) with
  | some k =>
    simp only [h2] at hact
    rw [file_group_action] at hact
    exact absurd hact (by decide)
  | none =>
  simp only [h2] at hact htgt ⊢
  cases h3 : system_keywords.find? (fun k => hasSubS (normalize cmd) k) with
  | some kw =>
    simp only [h3, base_intent] at hact
    exact absurd hact (by decide)
  | none =>
  simp only [h3] at hact htgt ⊢
  cases h4 : content_keywords.find?
      (fun kw => (splitWS kw.toList).any (fun tok => hasSub (normalize cmd) tok)) with
  | none =>
    simp only [h4, base_intent] at hact
    exact absurd hact (by decide)
  | some kw =>
  simp only [h4] at htgt ⊢
  unfold content_group at htgt ⊢
  cases h5 : content_types.find? (fun ty => hasSubS (normalize cmd) ty) with
  | none =>
    simp only [h5] at htgt
    exact absurd rfl htgt
  | some ty =>
  simp only [h5] at htgt ⊢
  rw [if_pos hab]
  rfl

/-- The concrete command witnessing the amended C9. -/
def cmd_essay : List Char := "compose an essay about cats".toList

/-- Witness for `topic_extracted_when_type_resolved` at
"compose an essay about cats" (the extracted topic is "cats"). -/
theorem topic_extracted_when_type_resolved_witness :
    (parse_command cmd_essay).parameters.lookup "topic"
      = some (stripChars (cmd_essay.drop
          (findSub (normalize cmd_essay) "about".toList + 5))) :=
  topic_extracted_when_type_resolved cmd_essay (by decide) (by decide) (by decide)

end SmartOS
